import Mathlib

/-!
# Verification of the Meditation Chimes scheduler (`src/app.py`)

Shallow embedding of the scheduling/firing engine, the schedule-store form
handler, the procedural sound generator and the tone-synthesizer
normalization step of `app.py`, together with proofs of the specified
properties.

Conventions of the embedding:
* A timestamp `now = dt.datetime.now(TZ)` is modelled by `DT`: an abstract
  calendar-day index (`dt.datetime.strftime('%Y-%m-%d')` is injective on
  dates, so a `Nat` day index is faithful) plus hour/minute/second.
  Sub-second precision is not needed by any claim and is omitted.
* The `'HH:MM'` strings produced by `strftime('%H:%M')` and parsed back by
  `split(':')` are modelled as `(hour, minute)` pairs: for `hour < 24`,
  `minute < 60` the formatting/parsing round-trip is a bijection.
* A timer dict `{'id', 'label', 'start', 'end', 'interval_min', 'sound',
  'play_seconds', 'repeat_daily', 'last_day', 'fired'}` is the structure
  `Timer` with the same field names.
* The sound library `st.session_state.sounds` is an association list
  `SoundLib`; the byte blob of an entry is abstracted to a `Nat` tag (its
  content is never inspected by the scheduler). A missing key raises
  `KeyError` in Python; the embedding reports it with the `err` flag of
  `TickResult` (the tick stops, mutations made so far persist, exactly as
  an exception thrown out of the Streamlit script body).
-/

/-- A sound-library entry `(bytes, mime)`; the byte blob is abstracted to a
`Nat` tag since the scheduler only passes it through. -/
abbrev SoundEntry : Type := Nat × String

/-- `st.session_state.sounds`: mapping name → entry, in insertion order. -/
abbrev SoundLib : Type := List (String × SoundEntry)

/-- Python `sounds[name]` as a fallible lookup (`KeyError` ↦ `none`). -/
def lookupSound (lib : SoundLib) (name : String) : Option SoundEntry :=
  (List.find? (fun p => p.1 = name) lib).map Prod.snd

/-- A timezone-aware timestamp at second granularity: `day` is an abstract
calendar-date index in the reference timezone. -/
structure DT where
  day : Nat
  hour : Nat
  minute : Nat
  second : Nat
deriving DecidableEq, Repr

/-- Seconds since local midnight, the quantity `now.replace(...)`
comparisons in the scheduler reduce to (all of `now`, `sdt`, `edt` share
`now`'s date). -/
def DT.secOfDay (τ : DT) : Nat :=
  τ.hour * 3600 + τ.minute * 60 + τ.second

/-- One chime-window dict of `st.session_state.timers`. -/
structure Timer where
  id : Nat
  label : String
  start : Nat × Nat
  «end» : Nat × Nat
  interval_min : Nat
  sound : String
  play_seconds : Nat
  repeat_daily : Bool
  last_day : Option Nat
  fired : List (Nat × Nat)
deriving DecidableEq, Repr

/-- `sdt = now.replace(hour=hh_s, minute=mm_s, second=0, microsecond=0)`,
as seconds of day. -/
def Timer.startSec (t : Timer) : Nat :=
  t.start.1 * 3600 + t.start.2 * 60

/-- `edt = now.replace(hour=hh_e, minute=mm_e, second=59, microsecond=0)`,
as seconds of day. Note the `second=59`: the window is inclusive through
the last second of the `end` minute. -/
def Timer.endSec (t : Timer) : Nat :=
  t.«end».1 * 3600 + t.«end».2 * 60 + 59

/-- The emission of one firing: the `st.success` line plus the
`audio_player_autoplay(d, m, key=f"play_{id}_{hm}", repeat_seconds=...)`
call of lines 278–279. -/
structure FireEvent where
  windowId : Nat
  instant : Nat × Nat
  sound : SoundEntry
  play_seconds : Nat
  label : String
deriving DecidableEq, Repr

/-- Result of evaluating one timer on one tick: the (possibly mutated)
timer, the event emitted (at most one), and whether the evaluation raised
(`KeyError` on the sound lookup — the only raising operation). -/
structure TickResult where
  timer : Timer
  event : Option FireEvent
  err : Bool
deriving DecidableEq, Repr

/-- One iteration of the scheduler loop (`app.py` lines 262–283) for a
single timer `t` at time `now`:

```python
if t['last_day'] != today:
    t['fired'] = []
    t['last_day'] = today
hh_s, mm_s = map(int, t['start'].split(':'))
hh_e, mm_e = map(int, t['end'].split(':'))
sdt = now.replace(hour=hh_s, minute=mm_s, second=0, microsecond=0)
edt = now.replace(hour=hh_e, minute=mm_e, second=59, microsecond=0)
if sdt <= now <= edt:
    elapsed = int((now - sdt).total_seconds() // 60)
    if elapsed % t['interval_min'] == 0:
        hm = now.strftime('%H:%M')
        if hm not in t['fired']:
            d, m = st.session_state.sounds[t['sound']] ...   # may raise KeyError
            ... emit ...
            t['fired'].append(hm)
```

`sdt`/`edt` carry `now`'s date, so the range test compares seconds of day;
`elapsed` is floor division of a non-negative number of seconds, i.e. `Nat`
division here. The side effects `no_refresh_until` and the rendered HTML
are outside every claim and are not modelled. The loop body is split into
its two stages: the day-boundary reset (first `if`) and the evaluation
proper (the rest). -/
def resetDay (today : Nat) (t : Timer) : Timer :=
  if t.last_day = some today then t
  else { t with fired := [], last_day := some today }

/-- Lines 267–283: range test, interval test, idempotence guard, sound
lookup (raising on a missing key), emission and `fired.append`. -/
def evalTimer (lib : SoundLib) (now : DT) (t1 : Timer) : TickResult :=
  if t1.startSec ≤ now.secOfDay ∧ now.secOfDay ≤ t1.endSec then
    if (now.secOfDay - t1.startSec) / 60 % t1.interval_min = 0 then
      if (now.hour, now.minute) ∈ t1.fired then ⟨t1, none, false⟩
      else
        match lookupSound lib t1.sound with
        | some snd =>
            ⟨{ t1 with fired := t1.fired ++ [(now.hour, now.minute)] },
             some ⟨t1.id, (now.hour, now.minute), snd, t1.play_seconds, t1.label⟩,
             false⟩
        | none => ⟨t1, none, true⟩
    else ⟨t1, none, false⟩
  else ⟨t1, none, false⟩

/-- The whole loop body for one timer: reset, then evaluate. -/
def tickTimer (lib : SoundLib) (now : DT) (t : Timer) : TickResult :=
  evalTimer lib now (resetDay now.day t)

/-- The whole scheduler pass `for t in st.session_state.timers: ...` at one
time `now`: returns the mutated timer list, the events emitted in order,
and whether the pass raised. An exception aborts the loop: timers already
processed keep their mutations, the raising timer keeps its day-reset
mutation, the rest are untouched. -/
def tickAll (lib : SoundLib) (now : DT) : List Timer → List Timer × List FireEvent × Bool
  | [] => ([], [], false)
  | t :: ts =>
    let r := tickTimer lib now t
    if r.err then (r.timer :: ts, r.event.toList, true)
    else
      let rest := tickAll lib now ts
      (r.timer :: rest.1, r.event.toList ++ rest.2.1, rest.2.2)

/-- A sequence of scheduler passes over a single timer, one per element of
`times` (the polling loop re-runs the script; session state carries the
timer between runs). Returns the final timer state and all events emitted
for it. -/
def runTicks (lib : SoundLib) : List DT → Timer → Timer × List FireEvent
  | [], t => (t, [])
  | τ :: rest, t =>
    let r := tickTimer lib τ t
    let next := runTicks lib rest r.timer
    (next.1, r.event.toList ++ next.2)

/-- Python `dt.time` comparison `end_time <= start_time` (lexicographic on
(hour, minute); the form's times have zero seconds/microseconds). -/
def timeLe (a b : Nat × Nat) : Bool :=
  decide (a.1 < b.1) || (a.1 == b.1 && decide (a.2 ≤ b.2))

/-- Python `label.strip()`: drop whitespace from both ends. -/
def pyStrip (s : String) : String :=
  ⟨((s.data.dropWhile Char.isWhitespace).reverse.dropWhile
      Char.isWhitespace).reverse⟩

/-- The `add_block` form submit handler (`app.py` lines 229–244): on
`end_time <= start_time` it shows an error (`Bool` flag `true`) and leaves
the store unchanged; otherwise it appends the new timer dict. `idMs` is
`int(time.time() * 1000)`. -/
def add_block (timers : List Timer) (idMs : Nat) (label : String)
    (start_time end_time : Nat × Nat) (interval_min : Nat)
    (sound_name : String) (play_seconds : Nat) (repeat_daily : Bool) :
    List Timer × Bool :=
  if timeLe end_time start_time then (timers, true)
  else
    (timers ++ [{ id := idMs, label := pyStrip label, start := start_time,
                  «end» := end_time, interval_min := interval_min,
                  sound := sound_name, play_seconds := play_seconds,
                  repeat_daily := repeat_daily, last_day := none,
                  fired := [] }], false)

/-! ## Tone synthesizer: the normalization step of `synth_tone`

`synth_tone` (lines 23–37) sums sinusoidal partials, applies an
exponential envelope, then normalizes:

```python
y /= max(1e-9, np.max(np.abs(y)))
```

The sample values are real numbers; the normalization step is modelled
exactly, over `ℚ` so it is executable, for an arbitrary sample list `y`
(the claims about it hold for every signal, whatever `sin`/`exp` produced).
-/

/-- `np.max(np.abs(y))` — peak absolute amplitude of a sample list (0 for
the empty list; `synth_tone`'s `y` has `int(SR * duration)` samples). -/
def peakAbs (y : List ℚ) : ℚ :=
  (y.map (fun s => |s|)).foldr max 0

/-- The literal `1e-9` guard of line 30. -/
def normGuard : ℚ := 1 / 1000000000

/-- Line 30: `y /= max(1e-9, np.max(np.abs(y)))`. -/
def normalizeSignal (y : List ℚ) : List ℚ :=
  y.map (fun s => s / max normGuard (peakAbs y))

/-! ## Procedural sound generator `generate_gongs_and_bowls`

`generate_gongs_and_bowls(n=100, seed=7)` (lines 50–66) builds `n` named
tones. All randomness comes from `rng = np.random.default_rng(seed)`, a
generator whose draw sequence is a pure function of `seed` (numpy's
documented contract). No claim depends on the numeric value of any draw,
so the PCG64 stream is represented by a fixed computable function
`rngDraw seed idx` of the seed and the draw index, threaded through the
loops in exactly the order the Python code consumes draws:
per instance `i`: one `rng.integers(3, 6)`, then per harmonic `k` one
`rng.normal(0, 0.015)` and one `rng.random()`, then one final
`rng.random()` for the duration.

The waveform bytes of an entry are `synth_tone(parts, duration, decay)`;
`synth_tone` is a pure function of its arguments (it draws no randomness),
so byte-identity of two entries follows from equality of the `Waveform`
synthesis specs recorded here. -/

/-- Stand-in for the PCG64 draw stream of `np.random.default_rng(seed)`:
any fixed computable function of (seed, draw index) models a deterministic
generator. -/
def rngDraw (seed idx : Nat) : Nat :=
  (seed * 6364136223846793005 + idx * 1442695040888963407 + 1013904223) % 2 ^ 64

/-- `rng.integers(3, 6)`: a draw from {3, 4, 5}. -/
def drawCount (seed idx : Nat) : Nat := 3 + rngDraw seed idx % 3

/-- `rng.normal(0, 0.015)`: a small detuning, here ranging over
[-0.015, 0.015] in steps of 1/2000. -/
def drawDetune (seed idx : Nat) : ℚ :=
  ((rngDraw seed idx % 61 : Nat) : ℚ) / 2000 - 3 / 200

/-- `rng.random()`: a draw from [0, 1). -/
def drawUnit (seed idx : Nat) : ℚ :=
  ((rngDraw seed idx % 1024 : Nat) : ℚ) / 1024

/-- The synthesis spec handed to `synth_tone`; stands for the waveform
bytes, which are a pure function of it. -/
structure Waveform where
  parts : List (ℚ × ℚ)
  duration : ℚ
  decay : ℚ
deriving DecidableEq, Repr

/-- The `categories` table of line 53, indexed as `categories[i % 5]`. -/
def catAt (i : Nat) : String × ℚ × ℚ :=
  match i % 5 with
  | 0 => ("Deep Gong", 90, 5/2)
  | 1 => ("Bronze Gong", 140, 11/5)
  | 2 => ("Temple Gong", 220, 2)
  | 3 => ("Singing Bowl", 196, 13/10)
  | _ => ("Wind Chime", 660, 7/2)

/-- The inner harmonic loop (lines 59–63), `remaining` harmonics starting
at index `k`:

```python
for k in range(1, rng.integers(3, 6) + 1):
    det = rng.normal(0, 0.015)
    amp = max(0.15, 1.2 / (k + rng.random()))
    parts.append(((base * k) * (1 + det), amp))
```

Returns the parts list and the advanced draw index. -/
def genParts (seed : Nat) (base : ℚ) : Nat → Nat → Nat → List (ℚ × ℚ) × Nat
  | _, 0, idx => ([], idx)
  | k, r + 1, idx =>
    let det := drawDetune seed idx
    let amp := max (3/20) (6/5 / ((k : ℚ) + drawUnit seed (idx + 1)))
    let rest := genParts seed base (k + 1) r (idx + 2)
    (((base * (k : ℚ)) * (1 + det), amp) :: rest.1, rest.2)

/-- One iteration of the outer loop (lines 57–65) for instance `i`:
category pick, harmonic draws, duration
`2.0 + float(rng.random() * 1.5)`, entry named `f"{name} #{i+1}"`,
stored as `(wav, 'audio/wav')`. -/
def genOne (seed i idx : Nat) : (String × Waveform × String) × Nat :=
  let c := catAt i
  let kmax := drawCount seed idx
  let pr := genParts seed c.2.1 1 kmax (idx + 1)
  let dur : ℚ := 2 + drawUnit seed pr.2 * (3/2)
  ((c.1 ++ " #" ++ toString (i + 1), ⟨pr.1, dur, c.2.2⟩, "audio/wav"), pr.2 + 1)

/-- The outer loop `for i in range(n)`, threading the draw index;
`remaining` instances starting at instance `i`. -/
def genLoop (seed : Nat) : Nat → Nat → Nat → List (String × Waveform × String)
  | _, _, 0 => []
  | i, idx, r + 1 =>
    let e := genOne seed i idx
    e.1 :: genLoop seed (i + 1) e.2 r

/-- `generate_gongs_and_bowls(n, seed)` (lines 50–66). The instance names
all carry the 1-based index `#i+1`, so the dict keyed by name is faithfully
an association list. -/
def generate_gongs_and_bowls (n seed : Nat) : List (String × Waveform × String) :=
  genLoop seed 0 0 n

/-- Dict lookup in the generated library. -/
def lookupGen (lib : List (String × Waveform × String)) (name : String) :
    Option (Waveform × String) :=
  (List.find? (fun p => p.1 = name) lib).map Prod.snd

/-! ## Concrete fixtures for the specified scenarios -/

/-- A one-entry sound library for the concrete scenarios. -/
def bellLib : SoundLib := [("Soft Bell", (0, "audio/wav"))]

/-- The boundary-inclusivity window `{start: "09:00", end: "09:05",
interval: 1}` of the spec, with its sound present and a clean fired state
for day 0. -/
def baseTimer : Timer :=
  { id := 1, label := "Meditation", start := (9, 0), «end» := (9, 5),
    interval_min := 1, sound := "Soft Bell", play_seconds := 6,
    repeat_daily := true, last_day := some 0, fired := [] }

/-- The interval-bucketing window `{start: "09:00", end: "10:00",
interval: 15}` of the spec. -/
def sweepTimer : Timer :=
  { baseTimer with «end» := (10, 0), interval_min := 15 }

/-- One tick per minute from 09:00 through 10:00, at second 0, on day 0. -/
def sweepTimes : List DT :=
  (List.range 61).map (fun k => ⟨0, (540 + k) / 60, (540 + k) % 60, 0⟩)

/-- A window covering the whole day, for the day-reset scenario (fire at
23:59 on day 0, again at 00:01 on day 1). -/
def dayTimer : Timer :=
  { baseTimer with start := (0, 0), «end» := (23, 59), last_day := none }

/-- Equality of all the fields of a timer that the scheduler never writes
(everything but `last_day` and `fired`). -/
def Timer.staticEq (s t : Timer) : Prop :=
  s.id = t.id ∧ s.label = t.label ∧ s.start = t.start ∧ s.«end» = t.«end» ∧
  s.interval_min = t.interval_min ∧ s.sound = t.sound ∧
  s.play_seconds = t.play_seconds ∧ s.repeat_daily = t.repeat_daily

/-! ## Helper lemmas -/

theorem staticEq_refl (t : Timer) : Timer.staticEq t t :=
  ⟨rfl, rfl, rfl, rfl, rfl, rfl, rfl, rfl⟩

theorem resetDay_last_day (d : Nat) (t : Timer) :
    (resetDay d t).last_day = some d := by
  unfold resetDay; split_ifs with h
  · exact h
  · rfl

theorem resetDay_start (d : Nat) (t : Timer) :
    (resetDay d t).start = t.start := by
  unfold resetDay; split_ifs <;> rfl

theorem resetDay_end (d : Nat) (t : Timer) :
    (resetDay d t).«end» = t.«end» := by
  unfold resetDay; split_ifs <;> rfl

theorem resetDay_sound (d : Nat) (t : Timer) :
    (resetDay d t).sound = t.sound := by
  unfold resetDay; split_ifs <;> rfl

theorem resetDay_startSec (d : Nat) (t : Timer) :
    (resetDay d t).startSec = t.startSec := by
  unfold Timer.startSec; rw [resetDay_start]

theorem resetDay_endSec (d : Nat) (t : Timer) :
    (resetDay d t).endSec = t.endSec := by
  unfold Timer.endSec; rw [resetDay_end]

theorem resetDay_staticEq (d : Nat) (t : Timer) :
    Timer.staticEq t (resetDay d t) := by
  unfold resetDay; split_ifs
  · exact staticEq_refl t
  · exact ⟨rfl, rfl, rfl, rfl, rfl, rfl, rfl, rfl⟩

/-- The evaluation stage returns its input timer, either untouched or with
exactly the current bucket appended to `fired`. -/
theorem evalTimer_timer_cases (lib : SoundLib) (now : DT) (t1 : Timer) :
    (evalTimer lib now t1).timer = t1 ∨
    (evalTimer lib now t1).timer
      = { t1 with fired := t1.fired ++ [(now.hour, now.minute)] } := by
  unfold evalTimer
  split_ifs <;> try exact Or.inl rfl
  cases lookupSound lib t1.sound
  · exact Or.inl rfl
  · exact Or.inr rfl

theorem evalTimer_last_day (lib : SoundLib) (now : DT) (t1 : Timer) :
    (evalTimer lib now t1).timer.last_day = t1.last_day := by
  rcases evalTimer_timer_cases lib now t1 with h | h <;> rw [h]

theorem tickTimer_last_day (lib : SoundLib) (now : DT) (t : Timer) :
    (tickTimer lib now t).timer.last_day = some now.day := by
  unfold tickTimer
  rw [evalTimer_last_day, resetDay_last_day]

/-- If the evaluation stage emitted an event, the current bucket is in the
resulting fired list. -/
theorem evalTimer_event_mem (lib : SoundLib) (now : DT) (t1 : Timer) :
    (evalTimer lib now t1).event.isSome = true →
    (now.hour, now.minute) ∈ (evalTimer lib now t1).timer.fired := by
  unfold evalTimer
  split_ifs with h1 h2 h3
  · simp
  · cases hl : lookupSound lib t1.sound <;> simp [hl]
  · simp
  · simp

theorem tickTimer_event_mem (lib : SoundLib) (now : DT) (t : Timer) :
    (tickTimer lib now t).event.isSome = true →
    (now.hour, now.minute) ∈ (tickTimer lib now t).timer.fired := by
  unfold tickTimer; exact evalTimer_event_mem lib now (resetDay now.day t)

/-- Idempotence guard: a bucket already in `fired` makes the evaluation
stage a complete no-op. -/
theorem evalTimer_already (lib : SoundLib) (now : DT) (t1 : Timer)
    (hmem : (now.hour, now.minute) ∈ t1.fired) :
    evalTimer lib now t1 = ⟨t1, none, false⟩ := by
  unfold evalTimer
  split_ifs with h1 h2 <;> rfl

/-- A tick on a day already recorded, at a bucket already fired, changes
nothing and emits nothing. -/
theorem tickTimer_already (lib : SoundLib) (now : DT) (t : Timer)
    (hday : t.last_day = some now.day)
    (hmem : (now.hour, now.minute) ∈ t.fired) :
    tickTimer lib now t = ⟨t, none, false⟩ := by
  unfold tickTimer
  have hr : resetDay now.day t = t := by unfold resetDay; rw [if_pos hday]
  rw [hr]
  exact evalTimer_already lib now t hmem

theorem tickTimer_staticEq (lib : SoundLib) (now : DT) (t : Timer) :
    Timer.staticEq t (tickTimer lib now t).timer := by
  unfold tickTimer
  rcases evalTimer_timer_cases lib now (resetDay now.day t) with h | h <;> rw [h]
  · exact resetDay_staticEq now.day t
  · obtain ⟨h1, h2, h3, h4, h5, h6, h7, h8⟩ := resetDay_staticEq now.day t
    exact ⟨h1, h2, h3, h4, h5, h6, h7, h8⟩

/-- Once a window's state records the current day and bucket as fired,
any further ticks inside that same minute leave it unchanged and silent. -/
theorem runTicks_silent (lib : SoundLib) (d h m : Nat) :
    ∀ (times : List DT) (t : Timer), t.last_day = some d →
      (h, m) ∈ t.fired →
      (∀ τ ∈ times, τ.day = d ∧ τ.hour = h ∧ τ.minute = m) →
      runTicks lib times t = (t, []) := by
  intro times
  induction times with
  | nil => intro t _ _ _; rfl
  | cons τ rest ih =>
    intro t hld hmem hall
    obtain ⟨hd, hh, hm⟩ := hall τ (List.mem_cons_self τ rest)
    have htick : tickTimer lib τ t = ⟨t, none, false⟩ := by
      apply tickTimer_already
      · rw [hd]; exact hld
      · rw [hh, hm]; exact hmem
    have hrest := ih t hld hmem (fun τ' hτ' => hall τ' (List.mem_cons_of_mem τ hτ'))
    simp only [runTicks, htick, hrest, Option.toList, List.nil_append]

/-- Core of the at-most-once-per-bucket invariant: over any sequence of
ticks all lying inside one minute of one day, a window emits at most one
FireEvent. -/
theorem runTicks_atMostOnce (lib : SoundLib) (d h m : Nat) :
    ∀ times : List DT, (∀ τ ∈ times, τ.day = d ∧ τ.hour = h ∧ τ.minute = m) →
      ∀ t : Timer, (runTicks lib times t).2.length ≤ 1 := by
  intro times
  induction times with
  | nil => intro _ t; simp [runTicks]
  | cons τ rest ih =>
    intro hall t
    obtain ⟨hd, hh, hm⟩ := hall τ (List.mem_cons_self τ rest)
    have hall' : ∀ τ' ∈ rest, τ'.day = d ∧ τ'.hour = h ∧ τ'.minute = m :=
      fun τ' hτ' => hall τ' (List.mem_cons_of_mem τ hτ')
    by_cases hev : (tickTimer lib τ t).event.isSome = true
    · have hmem := tickTimer_event_mem lib τ t hev
      have hld := tickTimer_last_day lib τ t
      have hsilent := runTicks_silent lib d h m rest (tickTimer lib τ t).timer
        (by rw [hld, hd]) (by rw [← hh, ← hm]; exact hmem) hall'
      simp only [runTicks, hsilent]
      cases (tickTimer lib τ t).event <;> simp
    · have hnone : (tickTimer lib τ t).event = none := by
        cases hevo : (tickTimer lib τ t).event
        · rfl
        · rw [hevo] at hev; simp at hev
      simp only [runTicks, hnone, Option.toList, List.nil_append]
      exact ih hall' (tickTimer lib τ t).timer

theorem peakAbs_nil : peakAbs [] = 0 := rfl

theorem peakAbs_cons (s : ℚ) (y : List ℚ) :
    peakAbs (s :: y) = max |s| (peakAbs y) := rfl

/-- Dividing every sample by a nonnegative constant divides the peak. -/
theorem peakAbs_map_div (c : ℚ) (hc : 0 ≤ c) :
    ∀ y : List ℚ, peakAbs (y.map (fun s => s / c)) = peakAbs y / c := by
  intro y
  induction y with
  | nil => simp [peakAbs_nil]
  | cons s y ih =>
    rw [List.map_cons, peakAbs_cons, peakAbs_cons, ih, abs_div,
      abs_of_nonneg hc, max_div_div_right hc]

/-! ## Claims -/

/-- **C1, counterexample.** The claim says a tick whose time-of-day lies
strictly outside `[start, end]` emits nothing, and in particular that
`now = 09:05:01` produces no FireEvent. But `edt` is built with
`second=59`, so for the window 09:00–09:05 a tick at 09:05:30 — strictly
after the end instant 09:05:00 — still fires when the 09:05 bucket is
fresh. -/
theorem alarm_C1_counterexample :
    9 * 3600 + 5 * 60 + 0 < (DT.mk 0 9 5 30).secOfDay ∧
    (tickTimer bellLib ⟨0, 9, 5, 30⟩ baseTimer).event.isSome = true := by
  decide

/-- **C1, amended.** The active range is inclusive from `start` at second
0 through `end` at second 59: a tick before `start:00` or after `end:59`
emits nothing for that window. In the spec's sequential scenario the
original observations all hold: ticking the 09:00–09:05/1-min window at
09:00:00, 09:05:00, 09:05:01, 08:59:59 produces FireEvents exactly at
buckets 09:00 and 09:05 (09:05:01 is silent only because the 09:05 bucket
has already fired; 08:59:59 is outside the range). -/
theorem alarm_C1 :
    (∀ (lib : SoundLib) (now : DT) (t : Timer),
        now.secOfDay < t.startSec ∨ t.endSec < now.secOfDay →
        (tickTimer lib now t).event = none) ∧
    (runTicks bellLib [⟨0, 9, 0, 0⟩, ⟨0, 9, 5, 0⟩, ⟨0, 9, 5, 1⟩, ⟨0, 8, 59, 59⟩]
        baseTimer).2.map FireEvent.instant = [(9, 0), (9, 5)] := by
  constructor
  · intro lib now t hout
    unfold tickTimer evalTimer
    rw [resetDay_startSec, resetDay_endSec]
    rw [if_neg]
    rcases hout with hlt | hlt <;> omega
  · decide

/-- Witness for `alarm_C1`: a tick at 08:59:59 (before the 09:00 start)
emits nothing. -/
theorem alarm_C1_witness :
    (tickTimer bellLib ⟨0, 8, 59, 59⟩ baseTimer).event = none :=
  alarm_C1.1 bellLib ⟨0, 8, 59, 59⟩ baseTimer (Or.inl (by decide))

/-- **C2, counterexample.** The claim says a dangling `soundRef` lets the
evaluation complete without error and still marks the bucket fired. The
code looks the sound up with `st.session_state.sounds[t['sound']]`
*before* `t['fired'].append(hm)` and with no guard: a missing key raises
`KeyError`, the tick errors out, and the bucket is not marked fired. -/
theorem alarm_C2_counterexample :
    lookupSound bellLib "Ghost" = none ∧
    (tickTimer bellLib ⟨0, 9, 3, 0⟩ { baseTimer with sound := "Ghost" }).err = true ∧
    (tickTimer bellLib ⟨0, 9, 3, 0⟩ { baseTimer with sound := "Ghost" }).event = none ∧
    ¬ (9, 3) ∈ (tickTimer bellLib ⟨0, 9, 3, 0⟩
        { baseTimer with sound := "Ghost" }).timer.fired := by
  decide

/-- **C2, amended.** For a window whose `soundRef` does not resolve, a
tick emits no FireEvent and never adds the bucket to `firedInstants`: the
fired list stays exactly at its post-day-reset value (the unguarded dict
lookup raises `KeyError` whenever the fire branch is reached). -/
theorem alarm_C2 (lib : SoundLib) (now : DT) (t : Timer)
    (hmiss : lookupSound lib t.sound = none) :
    (tickTimer lib now t).event = none ∧
    (tickTimer lib now t).timer.fired = (resetDay now.day t).fired := by
  unfold tickTimer evalTimer
  have hs : lookupSound lib (resetDay now.day t).sound = none := by
    rw [resetDay_sound]; exact hmiss
  split_ifs with h1 h2 h3
  · exact ⟨rfl, rfl⟩
  · rw [hs]; exact ⟨rfl, rfl⟩
  · exact ⟨rfl, rfl⟩
  · exact ⟨rfl, rfl⟩

/-- Witness for `alarm_C2` at the counterexample input. -/
theorem alarm_C2_witness :
    (tickTimer bellLib ⟨0, 9, 3, 0⟩ { baseTimer with sound := "Ghost" }).event = none ∧
    (tickTimer bellLib ⟨0, 9, 3, 0⟩ { baseTimer with sound := "Ghost" }).timer.fired
      = (resetDay 0 { baseTimer with sound := "Ghost" }).fired :=
  alarm_C2 bellLib ⟨0, 9, 3, 0⟩ { baseTimer with sound := "Ghost" } (by decide)

/-- **C3.** At-most-once-per-bucket: however often the scheduler is ticked
at times inside one and the same minute (same calendar day, hour and
minute), a window emits at most one FireEvent. -/
theorem alarm_C3 (lib : SoundLib) (d h m : Nat) (times : List DT) (t : Timer)
    (hall : ∀ τ ∈ times, τ.day = d ∧ τ.hour = h ∧ τ.minute = m) :
    (runTicks lib times t).2.length ≤ 1 :=
  runTicks_atMostOnce lib d h m times hall t

/-- Witness for `alarm_C3`: three ticks inside the minute 09:02 on day 0
yield at most one FireEvent. -/
theorem alarm_C3_witness :
    (runTicks bellLib [⟨0, 9, 2, 0⟩, ⟨0, 9, 2, 20⟩, ⟨0, 9, 2, 40⟩] baseTimer).2.length ≤ 1 :=
  alarm_C3 bellLib 0 9 2 [⟨0, 9, 2, 0⟩, ⟨0, 9, 2, 20⟩, ⟨0, 9, 2, 40⟩] baseTimer (by decide)

/-- **C4.** Day-boundary reset: a tick on a calendar day different from
the stored `last_day` behaves exactly as if `fired` had been cleared and
`last_day` set to the new day first, and the resulting state records the
new day. Consequently, in the concrete scenario, a window that fired at
23:59 on day 0 fires again at the matching bucket 00:01 on day 1. -/
theorem alarm_C4 :
    (∀ (lib : SoundLib) (now : DT) (t : Timer), t.last_day ≠ some now.day →
        tickTimer lib now t
          = tickTimer lib now { t with fired := [], last_day := some now.day } ∧
        (tickTimer lib now t).timer.last_day = some now.day) ∧
    (runTicks bellLib [⟨0, 23, 59, 0⟩, ⟨1, 0, 1, 0⟩] dayTimer).2.map FireEvent.instant
      = [(23, 59), (0, 1)] := by
  constructor
  · intro lib now t hne
    constructor
    · unfold tickTimer
      have h1 : resetDay now.day t = { t with fired := [], last_day := some now.day } := by
        unfold resetDay; rw [if_neg hne]
      have h2 : resetDay now.day { t with fired := [], last_day := some now.day }
          = { t with fired := [], last_day := some now.day } := by
        unfold resetDay; rw [if_pos rfl]
      rw [h1, h2]
    · exact tickTimer_last_day lib now t
  · decide

/-- Witness for `alarm_C4`: a day-1 tick of a timer whose state still
records day 0 proceeds from the reset state and records day 1. -/
theorem alarm_C4_witness :
    (tickTimer bellLib ⟨1, 0, 1, 0⟩
        { dayTimer with last_day := some 0, fired := [(23, 59)] }).timer.last_day
      = some 1 :=
  (alarm_C4.1 bellLib ⟨1, 0, 1, 0⟩
      { dayTimer with last_day := some 0, fired := [(23, 59)] } (by decide)).2

/-- **C5.** Window creation validates `end > start`: on
`end_time <= start_time` (lexicographic time-of-day comparison) the store
is unchanged and the error flag is set; otherwise exactly the new window
dict is appended. -/
theorem alarm_C5 (timers : List Timer) (idMs : Nat) (label : String)
    (s e : Nat × Nat) (iv : Nat) (sname : String) (ps : Nat) (rd : Bool) :
    (timeLe e s = true →
      add_block timers idMs label s e iv sname ps rd = (timers, true)) ∧
    (timeLe e s = false →
      add_block timers idMs label s e iv sname ps rd
        = (timers ++ [{ id := idMs, label := pyStrip label, start := s, «end» := e,
                        interval_min := iv, sound := sname, play_seconds := ps,
                        repeat_daily := rd, last_day := none,
                        fired := [] }], false)) := by
  constructor <;> intro hcmp <;> simp [add_block, hcmp]

/-- Witness for `alarm_C5`: `addWindow({start: "17:00", end: "09:00"})`
fails with a validation error and leaves the store unchanged. -/
theorem alarm_C5_witness :
    add_block [] 0 "Meditation" (17, 0) (9, 0) 1 "Soft Bell" 6 true = ([], true) :=
  (alarm_C5 [] 0 "Meditation" (17, 0) (9, 0) 1 "Soft Bell" 6 true).1 (by decide)

/-- **C6.** Interval bucketing: for the window 09:00–10:00 with interval
15, a full sweep of one tick per minute from 09:00 through 10:00 fires
exactly the buckets 09:00, 09:15, 09:30, 09:45, 10:00 and no others
(`floor(elapsed minutes) % 15 == 0` at exactly those minutes). -/
theorem alarm_C6 :
    (runTicks bellLib sweepTimes sweepTimer).2.map FireEvent.instant
      = [(9, 0), (9, 15), (9, 30), (9, 45), (10, 0)] := by
  decide

/-- **C7.** Determinism of the procedural library: two calls of
`generate_gongs_and_bowls` with the same count 100 and seed 7 yield the
same entry names, and for every name the same synthesis spec — hence, as
`synth_tone` is a pure function of that spec, byte-identical waveforms.
All draws come from a generator state that is a function of the seed
alone, so the result is a pure function of `(n, seed)`. -/
theorem alarm_C7 :
    ((generate_gongs_and_bowls 100 7).map Prod.fst
        = (generate_gongs_and_bowls 100 7).map Prod.fst) ∧
    ∀ name : String,
      lookupGen (generate_gongs_and_bowls 100 7) name
        = lookupGen (generate_gongs_and_bowls 100 7) name :=
  ⟨rfl, fun _ => rfl⟩

/-- **C8, counterexample.** The claim says an empty (or whitespace-only)
label defaults to "Meditation". The handler stores `label.strip()` with no
default: submitting a whitespace-only label stores the empty string. (The
string "Meditation" is only the text input's prefill.) -/
theorem alarm_C8_counterexample :
    (add_block [] 0 "   " (9, 0) (17, 0) 1 "Soft Bell" 6 true).1.map Timer.label
      = [""] ∧ "" ≠ "Meditation" := by
  decide

/-- **C8, amended.** For every window the handler accepts, the stored
label is exactly the stripped submitted label — possibly empty; no
"Meditation" default is applied at storage time. -/
theorem alarm_C8 (timers : List Timer) (idMs : Nat) (label : String)
    (s e : Nat × Nat) (iv : Nat) (sname : String) (ps : Nat) (rd : Bool)
    (hv : timeLe e s = false) :
    (add_block timers idMs label s e iv sname ps rd).1.map Timer.label
      = timers.map Timer.label ++ [pyStrip label] := by
  simp [add_block, hv]

/-- Witness for `alarm_C8`. -/
theorem alarm_C8_witness :
    (add_block [] 0 " Morning " (9, 0) (17, 0) 1 "Soft Bell" 6 true).1.map Timer.label
      = ([] : List Timer).map Timer.label ++ [pyStrip " Morning "] :=
  alarm_C8 [] 0 " Morning " (9, 0) (17, 0) 1 "Soft Bell" 6 true (by decide)

/-- **C9.** The `synth_tone` normalization `y /= max(1e-9, np.max(np.abs(y)))`
divides by a strictly positive quantity for every signal (even all-zero),
and whenever the peak exceeds the `1e-9` guard the normalized signal has
peak absolute amplitude exactly 1. -/
theorem alarm_C9 (y : List ℚ) :
    0 < max normGuard (peakAbs y) ∧
    (normGuard < peakAbs y → peakAbs (normalizeSignal y) = 1) := by
  have hg : (0 : ℚ) < normGuard := by norm_num [normGuard]
  constructor
  · exact lt_of_lt_of_le hg (le_max_left _ _)
  · intro hpk
    have hppos : (0 : ℚ) < peakAbs y := lt_trans hg hpk
    unfold normalizeSignal
    rw [max_eq_right (le_of_lt hpk), peakAbs_map_div (peakAbs y) (le_of_lt hppos) y,
      div_self (ne_of_gt hppos)]

/-- Witness for `alarm_C9` on the signal `[2, -3]` (peak 3). -/
theorem alarm_C9_witness :
    peakAbs (normalizeSignal [2, -3]) = 1 :=
  (alarm_C9 [2, -3]).2
    (by norm_num [peakAbs_cons, peakAbs_nil, normGuard])

/-- **C10.** Frame property of one scheduler pass: the timer list keeps
its length and order, every timer keeps its `id`, `label`, `start`, `end`,
`interval_min`, `sound`, `play_seconds` and `repeat_daily` (only
`last_day`/`fired` may change), and the sound library is only read — the
pass takes it as an input and returns no modified library. -/
theorem alarm_C10 (lib : SoundLib) (now : DT) (ts : List Timer) :
    (tickAll lib now ts).1.length = ts.length ∧
    List.Forall₂ Timer.staticEq ts (tickAll lib now ts).1 := by
  induction ts with
  | nil => exact ⟨rfl, List.Forall₂.nil⟩
  | cons t ts ih =>
    by_cases he : (tickTimer lib now t).err = true
    · simp only [tickAll, he, if_true]
      refine ⟨by simp, List.Forall₂.cons (tickTimer_staticEq lib now t) ?_⟩
      exact List.forall₂_same.mpr (fun x _ => staticEq_refl x)
    · simp only [tickAll, he, if_false]
      exact ⟨by simp [ih.1], List.Forall₂.cons (tickTimer_staticEq lib now t) ih.2⟩
